import Mathlib

/-!
Verification of the Torilate protocol core: a shallow embedding of the
URI resolver (src/util/util.c), the SOCKS4/4a negotiator
(src/socks/socks4.c), the HTTP redirect engine (src/http/http.c), the
send loop of the socket layer (src/net/socket_posix.c) and the error
propagation core (src/error/error.c), together with theorems settling
the specification claims about them.

Strings are embedded as List Char (C strings without their NUL), bytes
as Nat values below 256, C int values as Int. The 512-byte message
buffers of the error core truncate at 511 characters, which the
embedding keeps.
-/

namespace Torilate

/-- Decimal digit character, as produced by printf-style rendering. -/
def digitChar (n : Nat) : Char := Char.ofNat (48 + n)

/-- Fuel-driven accumulator for decimal rendering of a natural number. -/
def natToStringAux : Nat → Nat → List Char → List Char
  | 0, _, acc => acc
  | fuel + 1, n, acc =>
    if n < 10 then digitChar n :: acc
    else natToStringAux fuel (n / 10) (digitChar (n % 10) :: acc)

/-- Decimal rendering of a natural number (printf %u on the value). -/
def natToString (n : Nat) : List Char := natToStringAux (n + 1) n []

/-- Decimal rendering of an int (printf %d on the value). -/
def intToString (i : Int) : List Char :=
  if i < 0 then '-' :: natToString (- i).toNat else natToString i.toNat

/-! Error codes from the ErrorCode enum of src/error/error.h, as the C
int values of the enumerators. -/

def SUCCESS : Int := 0

def ERR_NETWORK_IO_CODE : Int := 4

def ERR_INVALID_ADDRESS : Int := 5

def ERR_NET_RECV_FAILED : Int := 6

def ERR_CONNECTION_FAILED : Int := 8

def ERR_ADDRESS_RESOLUTION_FAILED : Int := 11

def ERR_INVALID_URI : Int := 12

def ERR_BAD_RESPONSE : Int := 13

def ERR_HTTP_REDIRECT_LIMIT : Int := 17

def ERR_HTTP_REDIRECT_FAILED : Int := 18

/-- The Error struct of src/error/error.h: an int code and a message
held in a 512-byte buffer (hence at most 511 characters). -/
structure Error where
  code : Int
  message : List Char
  deriving DecidableEq

/-- The ": " delimiter written between context segments by err_propagate
and searched for by extract_top_level_error. -/
def chainSep : List Char := [':', ' ']

/-- err_create from src/error/error.c. The formatted text stands in for
the fmt/varargs pair; vsnprintf into the 512-byte message buffer keeps
at most 511 characters; a null fmt leaves the message empty. -/
def err_create (code : Int) (fmt : Option (List Char)) : Error :=
  match fmt with
  | some msg => { code := code, message := msg.take 511 }
  | none => { code := code, message := [] }

/-- err_propagate from src/error/error.c: a null fmt returns the error
unchanged; otherwise the formatted context (itself capped at 511) is
prepended, separated by ": " when the wrapped error has a message, and
the combination is capped at 511 characters by the snprintf bound. -/
def err_propagate (err : Error) (fmt : Option (List Char)) : Error :=
  match fmt with
  | none => err
  | some ctx =>
    let context := ctx.take 511
    if err.message = [] then { err with message := context }
    else { err with message := (context ++ chainSep ++ err.message).take 511 }

/-- C strstr: split hay at the first occurrence of pat, returning the
part before the match and the suffix beginning at the match; none when
pat does not occur. -/
def strstr_split (hay pat : List Char) : Option (List Char × List Char) :=
  if pat.isPrefixOf hay then some ([], hay)
  else
    match hay with
    | [] => none
    | c :: t => (strstr_split t pat).map (fun p => (c :: p.1, p.2))

/-- extract_top_level_error from src/error/error.c: the text before the
first ": " (copied through a 512-byte static buffer, hence capped at
511 characters), or the whole message when no delimiter occurs. -/
def extract_top_level_error (message : List Char) : List Char :=
  match strstr_split message chainSep with
  | some p => p.1.take 511
  | none => message

/-- The conceptual chain of context segments of a message, split at
every ": " delimiter; segments appear in the order they sit in the
message, outermost (most recently added by err_propagate) first. -/
def splitChain : List Char → List (List Char)
  | [] => [ [] ]
  | [c] => [ [c] ]
  | c :: d :: rest =>
    if c = ':' ∧ d = ' ' then [] :: splitChain rest
    else
      match splitChain (d :: rest) with
      | [] => [ [c] ]
      | s :: ss => (c :: s) :: ss

/-- PROG_NAME from src/torilate.h. -/
def PROG_NAME : List Char := ("torilate").data

/-- The static err_messg_list table of src/error/error.c, indexed by the
enum value; the final entry is the "Unknown error" fallback. -/
def err_messg_list (i : Int) : List Char :=
  if i = 0 then ("No error").data
  else if i = 1 then ("No arguments provided").data
  else if i = 2 then ("Invalid arguments").data
  else if i = 3 then ("Invalid command").data
  else if i = 4 then ("Network I/O error").data
  else if i = 5 then ("Invalid network address").data
  else if i = 6 then ("Failed to receive data from socket").data
  else if i = 7 then ("Failed to initialize socket subsystem").data
  else if i = 8 then ("Failed to connect to host").data
  else if i = 9 then ("Failed to connect to TOR proxy").data
  else if i = 10 then ("Failed to create socket").data
  else if i = 11 then ("Failed to resolve address").data
  else if i = 12 then ("Invalid URL").data
  else if i = 13 then ("Bad or malformed response").data
  else if i = 14 then ("Unsupported URL method or schema").data
  else if i = 15 then ("Invalid HTTP header").data
  else if i = 16 then ("HTTP request failed").data
  else if i = 17 then ("Exceeded maximum HTTP redirects").data
  else if i = 18 then ("Failed to follow HTTP redirect").data
  else if i = 19 then ("I/O error").data
  else if i = 20 then ("Out of memory").data
  else if i = 21 then ("Permission denied").data
  else if i = 22 then ("File not found").data
  else ("Unknown error").data

/-- nerr from src/error/error.c: table length minus one. -/
def nerr : Int := 23

/-- get_err_msg from src/error/error.c. Returns the rendered text; the
C function also rewrites err.message with that text, so the updated
Error comes along as the second component. -/
def get_err_msg (err : Error) (verbose : Bool) : List Char × Error :=
  let err_code : Int := if err.code < 0 ∨ nerr ≤ err.code then 23 else err.code
  let display : List Char :=
    if verbose = false ∧ err.message ≠ [] then extract_top_level_error err.message
    else err.message
  let rendered : List Char :=
    if display ≠ [] then
      (PROG_NAME ++ (": (").data ++ intToString err.code ++ (") ").data ++
        err_messg_list err_code ++ chainSep ++ display).take 511
    else
      (PROG_NAME ++ (": (").data ++ intToString err.code ++ (") ").data ++
        err_messg_list err_code).take 511
  (rendered, { err with message := rendered })

/-! The socket layer of src/net/socket_posix.c: address classification
and parsing (inet_pton behavior), and the send-all loop. -/

/-- State machine of inet_pton for AF_INET as net_parse_ipv4 and
net_get_addr_type invoke it: strict dotted-decimal, four octets 0-255,
no leading zeros, digits and dots only; the completed octets accumulate
in textual order, which is network order. -/
def inet_pton4_go : List Char → List Nat → Nat → Bool → Option (List Nat)
  | [], done, cur, sawDigit =>
    if sawDigit ∧ done.length = 3 then some (done ++ [cur]) else none
  | ch :: rest, done, cur, sawDigit =>
    if 48 ≤ ch.toNat ∧ ch.toNat ≤ 57 then
      let d := ch.toNat - 48
      if sawDigit ∧ cur = 0 then none
      else if 255 < cur * 10 + d then none
      else if sawDigit = false ∧ 3 < done.length then none
      else inet_pton4_go rest done (cur * 10 + d) true
    else if ch = '.' ∧ sawDigit then
      if done.length = 3 then none
      else inet_pton4_go rest (done ++ [cur]) 0 false
    else none

/-- inet_pton AF_INET on a textual address: the four address bytes in
network order, or none when the text is not a strict dotted quad. -/
def inet_pton4 (s : List Char) : Option (List Nat) := inet_pton4_go s [] 0 false

/-- Hex digit test of the IPv6 textual parser. -/
def isHexDigitC (c : Char) : Bool :=
  (48 ≤ c.toNat && c.toNat ≤ 57) || (97 ≤ c.toNat && c.toNat ≤ 102) ||
    (65 ≤ c.toNat && c.toNat ≤ 70)

/-- Value of a hex digit. -/
def hexVal (c : Char) : Nat :=
  if c.toNat ≤ 57 then c.toNat - 48
  else if c.toNat ≤ 70 then c.toNat - 55
  else c.toNat - 87

/-- Core loop of inet_pton for AF_INET6 (net_get_addr_type calls it to
classify hosts): bytes counts the output bytes already emitted, sawX
whether the current group has a digit, val the current group value,
colonSeen whether the :: compression occurred, curtok the suffix from
the last colon (used when a trailing dotted-quad appears). -/
def inet_pton6_go : List Char → Nat → Bool → Nat → Bool → List Char → Bool
  | [], bytes, sawX, _, colonSeen, _ =>
    if sawX ∧ 16 < bytes + 2 then false
    else
      let bytes2 := if sawX then bytes + 2 else bytes
      if colonSeen then decide (bytes2 < 16) else decide (bytes2 = 16)
  | ch :: rest, bytes, sawX, val, colonSeen, curtok =>
    if isHexDigitC ch then
      let v := val * 16 + hexVal ch
      if 65535 < v then false
      else inet_pton6_go rest bytes true v colonSeen curtok
    else if ch = ':' then
      if sawX = false then
        if colonSeen then false
        else inet_pton6_go rest bytes false 0 true rest
      else if rest = [] then false
      else if 16 < bytes + 2 then false
      else inet_pton6_go rest (bytes + 2) false 0 colonSeen rest
    else if ch = '.' then
      if bytes + 4 ≤ 16 ∧ (inet_pton4 curtok).isSome then
        if colonSeen then decide (bytes + 4 < 16) else decide (bytes + 4 = 16)
      else false
    else false

/-- Whether inet_pton accepts the text as an IPv6 address: a single
leading colon is only allowed as part of "::". -/
def inet_pton6_ok (s : List Char) : Bool :=
  match s with
  | ':' :: rest =>
    match rest with
    | ':' :: _ => inet_pton6_go rest 0 false 0 false rest
    | _ => false
  | _ => inet_pton6_go s 0 false 0 false s

/-- The NetAddrType enum of src/net/socket.h. -/
inductive NetAddrType
  | IPV4
  | IPV6
  | DOMAIN
  deriving DecidableEq

/-- net_get_addr_type from src/net/socket_posix.c: strict IPv4 parse,
then IPv6 parse, everything else a domain name. -/
def net_get_addr_type (addr : List Char) : NetAddrType :=
  if (inet_pton4 addr).isSome then NetAddrType.IPV4
  else if inet_pton6_ok addr then NetAddrType.IPV6
  else NetAddrType.DOMAIN

/-- net_parse_ipv4 from src/net/socket_posix.c: inet_pton AF_INET, with
failure packaged as ERR_ADDRESS_RESOLUTION_FAILED (the errno the C
message also renders is environment state and stays out of the model). -/
def net_parse_ipv4 (ip : List Char) : Except Error (List Nat) :=
  match inet_pton4 ip with
  | some bytes => Except.ok bytes
  | none => Except.error (err_create ERR_ADDRESS_RESOLUTION_FAILED
      (some (("Failed to parse IPv4 address ").data ++ ip)))

/-- The send loop of net_send_all (src/net/socket_posix.c). sends k is
the value the k-th send call returns and errnoOf k the errno it leaves;
fuel bounds how many loop iterations are observed: none means the loop
is still running after that many iterations, since the loop body has no
exit other than completion (sent reaching len) or a negative return. -/
def net_send_all_go (sends : Nat → Int) (errnoOf : Nat → Int) (len : Nat) :
    Nat → Nat → Nat → Option (Except Error Unit)
  | 0, _, _ => none
  | fuel + 1, k, sent =>
    if sent < len then
      if sends k < 0 then
        some (Except.error (err_create ERR_NETWORK_IO_CODE
          (some (("send() failed after ").data ++ natToString sent ++ [ '/' ] ++
            natToString len ++ (" bytes (error ").data ++ intToString (errnoOf k) ++ [ ')' ]))))
      else net_send_all_go sends errnoOf len fuel (k + 1) (sent + (sends k).toNat)
    else some (Except.ok ())

/-- net_send_all observed for fuel iterations, from an empty-progress
start. -/
def net_send_all (sends : Nat → Int) (errnoOf : Nat → Int) (len fuel : Nat) :
    Option (Except Error Unit) :=
  net_send_all_go sends errnoOf len fuel 0 0

/-! The SOCKS4/4a negotiator of src/socks/socks4.c. -/

/-- net_htons applied to a 16-bit port and written into the request
buffer: the two port bytes in network (big-endian) order. -/
def portBytes (port : Nat) : List Nat := [port / 256 % 256, port % 256]

/-- The user-id bytes the request carries: the C code copies the string
only when the pointer is non-null and the first character is not NUL. -/
def uidBytes (user_id : Option (List Char)) : List Nat :=
  match user_id with
  | some u => if u ≠ [] then u.map Char.toNat else []
  | none => []

/-- Request-building phase of socks4_connect (src/socks/socks4.c): the
bytes placed in the request buffer, in offset order, exactly as the C
code assembles them; Except mirrors the early returns taken when
net_parse_ipv4 fails. Characters contribute their byte values. -/
def socks4_build_request (dst_ip : List Char) (dst_port : Nat)
    (user_id : Option (List Char)) (addr_type : NetAddrType) :
    Except Error (List Nat) :=
  let ipRes : Except Error (List Nat) :=
    if addr_type = NetAddrType.DOMAIN then
      match net_parse_ipv4 ("0.0.0.1").data with
      | Except.ok b => Except.ok b
      | Except.error e => Except.error (err_propagate e
          (some ("Failed to set SOCKS4 domain placeholder IP").data))
    else
      match net_parse_ipv4 dst_ip with
      | Except.ok b => Except.ok b
      | Except.error e => Except.error (err_propagate e
          (some ("SOCKS4 IP resolution failed").data))
  match ipRes with
  | Except.error e => Except.error e
  | Except.ok ipb =>
    let domainPart : List Nat :=
      if addr_type = NetAddrType.DOMAIN then dst_ip.map Char.toNat else []
    Except.ok ([4, 1] ++ portBytes dst_port ++ ipb ++ uidBytes user_id ++ [0] ++
      domainPart ++ [0])

/-- The SOCKS4_OK status constant (request granted). -/
def SOCKS4_OK : Nat := 90

/-- Reply phase of socks4_connect: net_recv asks for 8 bytes once and
reports how many arrived; its outcome (a transport error, or the bytes
actually received) is this function's argument, and the checks on it
are the ones the C code performs after the send. -/
def socks4_check_reply (dst_ip : List Char) (dst_port : Nat)
    (recv_result : Except Error (List Nat)) : Except Error Unit :=
  match recv_result with
  | Except.error e => Except.error (err_propagate e
      (some ("Failed to receive SOCKS4 response").data))
  | Except.ok bytes =>
    if bytes.length ≠ 8 then
      Except.error (err_create ERR_NET_RECV_FAILED
        (some (("Expected 8 bytes in SOCKS4 response but received ").data ++
          natToString bytes.length)))
    else if bytes.getD 0 0 ≠ 0 ∨ bytes.getD 1 0 ≠ SOCKS4_OK then
      Except.error (err_create ERR_CONNECTION_FAILED
        (some (("SOCKS4 request rejected (VN=").data ++ natToString (bytes.getD 0 0) ++
          (", CD=").data ++ natToString (bytes.getD 1 0) ++ (") for ").data ++
          dst_ip ++ [ ':' ] ++ natToString dst_port)))
    else Except.ok ()

/-! The URI resolver of src/util/util.c. -/

/-- C strchr: split at the first occurrence of a character; the second
component begins at the found character. -/
def strchr_split (s : List Char) (ch : Char) : Option (List Char × List Char) :=
  match s with
  | [] => none
  | c :: t =>
    if c = ch then some ([], c :: t)
    else (strchr_split t ch).map (fun p => (c :: p.1, p.2))

/-- The C isspace set used by atoi and sscanf integer conversion. -/
def isspaceC (c : Char) : Bool :=
  c == ' ' || c == '\t' || c == '\n' || c == '\x0b' || c == '\x0c' || c == '\r'

/-- Leading-digit accumulator shared by atoi and sscanf %d. -/
def digitsVal : List Char → Int → Int × List Char
  | [], acc => (acc, [])
  | c :: rest, acc =>
    if 48 ≤ c.toNat ∧ c.toNat ≤ 57 then
      digitsVal rest (acc * 10 + ((c.toNat - 48 : Nat) : Int))
    else (acc, c :: rest)

/-- C atoi: skip whitespace, optional sign, leading digits (0 when no
digit follows). -/
def atoi (s : List Char) : Int :=
  let t := s.dropWhile isspaceC
  match t with
  | '-' :: r => - (digitsVal r 0).1
  | '+' :: r => (digitsVal r 0).1
  | r => (digitsVal r 0).1

/-- The Schema enum of the URI struct. -/
inductive Schema
  | HTTP
  | HTTPS
  | INVALID_SCHEMA
  deriving DecidableEq

/-- The URI out-parameter of parse_uri, one Option per field: a field is
some v exactly when the C function stored v into it before returning. -/
structure URIOut where
  schema : Option Schema := none
  host : Option (List Char) := none
  path : Option (List Char) := none
  port : Option Int := none
  addr_type : Option NetAddrType := none
  deriving DecidableEq

/-- parse_uri from src/util/util.c: scheme prefix recognition (an
unknown scheme:// prefix records the scheme text as host and fails with
ERR_INVALID_URI), host up to the first slash, path kept verbatim or
defaulted to "/", port after a colon in the host (atoi) or the schema
default, address kind of the final host text. Returns the C int result
together with the fields written. -/
def parse_uri (uri : List Char) : Int × URIOut :=
  let afterSchema : Except (Int × URIOut) (Schema × List Char) :=
    if ("http://").data.isPrefixOf uri then Except.ok (Schema.HTTP, uri.drop 7)
    else if ("https://").data.isPrefixOf uri then Except.ok (Schema.HTTPS, uri.drop 8)
    else
      match strstr_split uri ("://").data with
      | some p => Except.error (ERR_INVALID_URI,
          { schema := some Schema.INVALID_SCHEMA, host := some p.1 })
      | none => Except.ok (Schema.HTTP, uri)
  match afterSchema with
  | Except.error r => r
  | Except.ok sh =>
    let hostPath : List Char × List Char :=
      match strchr_split sh.2 '/' with
      | some p => (p.1, p.2)
      | none => (sh.2, [ '/' ])
    let hostPort : List Char × Int :=
      match strchr_split hostPath.1 ':' with
      | some p => (p.1, atoi (p.2.drop 1))
      | none => (hostPath.1, if sh.1 = Schema.HTTP then 80 else 443)
    (SUCCESS, { schema := some sh.1,
                host := some hostPort.1,
                path := some hostPath.2,
                port := some hostPort.2,
                addr_type := some (net_get_addr_type hostPort.1) })

/-- The URI value carried through the HTTP engine once parsing
succeeded (all fields written). -/
structure ParsedURI where
  host : List Char
  path : List Char
  port : Int
  addr_type : NetAddrType
  schema : Schema
  deriving DecidableEq

/-- The Error-typed parse_uri wrapper the callers in src/http/http.c
check with ERR_FAILED: packages the int result as an Error value. On
success every field was written, so the getD defaults never surface. -/
def parse_uri_err (uri : List Char) : Except Error ParsedURI :=
  let r := parse_uri uri
  if r.1 = SUCCESS then
    Except.ok { host := (r.2.host).getD [], path := (r.2.path).getD [],
                port := (r.2.port).getD 0,
                addr_type := (r.2.addr_type).getD NetAddrType.DOMAIN,
                schema := (r.2.schema).getD Schema.HTTP }
  else Except.error (err_create r.1 none)

/-! The HTTP request/response engine of src/http/http.c. -/

/-- The HttpResponse struct of src/http/http.h. -/
structure HttpResponse where
  status_code : Int
  raw : List Char
  bytes_received : Nat
  deriving DecidableEq

/-- sscanf %d: skip whitespace, optional sign, at least one digit;
returns the value and the rest of the input. -/
def scanfInt (s : List Char) : Option (Int × List Char) :=
  let t := s.dropWhile isspaceC
  match t with
  | '-' :: r =>
    match r with
    | c :: _ =>
      if 48 ≤ c.toNat ∧ c.toNat ≤ 57 then
        some (- (digitsVal r 0).1, (digitsVal r 0).2)
      else none
    | [] => none
  | '+' :: r =>
    match r with
    | c :: _ =>
      if 48 ≤ c.toNat ∧ c.toNat ≤ 57 then some (digitsVal r 0) else none
    | [] => none
  | c :: r =>
    if 48 ≤ c.toNat ∧ c.toNat ≤ 57 then some (digitsVal (c :: r) 0) else none
  | [] => none

/-- Status-line parse of http_recv_response (src/http/http.c): skip
leading spaces and CRLF, then sscanf "HTTP/%*d.%*d %d". -/
def parse_status_code (raw : List Char) : Option Int :=
  let s := raw.dropWhile (fun c => c == ' ' || c == '\r' || c == '\n')
  if ("HTTP/").data.isPrefixOf s then
    match scanfInt (s.drop 5) with
    | none => none
    | some p1 =>
      match p1.2 with
      | '.' :: r2 =>
        match scanfInt r2 with
        | none => none
        | some p2 => (scanfInt p2.2).map (fun p => p.1)
      | _ => none
  else none

/-- Response-interpretation phase of http_recv_response: raw is what the
receive loop drained into the bounded buffer before the peer closed;
a status code outside 100..599 or an unparseable status line is the
malformed-response failure. -/
def http_recv_parse (raw : List Char) : Except Error HttpResponse :=
  match parse_status_code raw with
  | some code =>
    if code < 100 ∨ 599 < code then
      Except.error (err_create ERR_BAD_RESPONSE
        (some ("Malformed HTTP header: Unable to parse status code").data))
    else Except.ok { status_code := code, raw := raw, bytes_received := raw.length }
  | none =>
    Except.error (err_create ERR_BAD_RESPONSE
      (some ("Malformed HTTP header: Unable to parse status code").data))

/-- ASCII lowering as tolower does for the strncasecmp match. -/
def lowerC (c : Char) : Char :=
  if 65 ≤ c.toNat ∧ c.toNat ≤ 90 then Char.ofNat (c.toNat + 32) else c

/-- strncasecmp-style case-insensitive prefix test. -/
def icasePrefix : List Char → List Char → Bool
  | [], _ => true
  | _ :: _, [] => false
  | p :: ps, c :: cs => lowerC p == lowerC c && icasePrefix ps cs

/-- The text up to the next CRLF, or none when no CRLF follows (the
strstr for the value terminator fails). -/
def takeToCRLF : List Char → Option (List Char)
  | [] => none
  | [_] => none
  | c :: d :: rest =>
    if c = '\r' ∧ d = '\n' then some []
    else (takeToCRLF (d :: rest)).map (fun l => c :: l)

/-- Outcome of the Location-header scan of the redirect loops. -/
inductive LocResult
  | found (url : List Char)
  | noEnd
  | missing
  deriving DecidableEq

/-- The Location scan of the redirect loops in src/http/http.c: after
each CRLF a case-insensitive "Location:" match takes the text after it
(leading spaces skipped) up to the next CRLF; a match whose value has
no closing CRLF is the extraction failure; no match at all leaves the
header missing. -/
def locScan : List Char → LocResult
  | [] => LocResult.missing
  | [_] => LocResult.missing
  | c :: d :: rest =>
    if c = '\r' ∧ d = '\n' then
      if icasePrefix ("Location:").data rest then
        match takeToCRLF ((rest.drop 9).dropWhile (fun x => x == ' ')) with
        | some u => LocResult.found u
        | none => LocResult.noEnd
      else locScan (d :: rest)
    else locScan (d :: rest)

/-- The network behavior one run observes, one entry per connection
attempt n: connect n is what the n-th net_connect to the Tor proxy
returns, and attempt n is the outcome of the n-th once-exchange up to
response draining (the SOCKS4 negotiation, request formatting and send,
and the receive loop, all abstracted into either an Error already
carrying those layers' context or the drained raw response bytes). -/
structure NetOracle where
  connect : Nat → Except Error Unit
  attempt : Nat → Except Error (List Char)

/-- HTTP request method. -/
inductive Method
  | GET
  | POST
  deriving DecidableEq

/-- The request side of one once-exchange: which method, host, path and
port the engine aimed at, and the body it carried (none for GET). -/
structure Attempt where
  method : Method
  host : List Char
  path : List Char
  port : Int
  body : Option (List Char)
  deriving DecidableEq

/-- One http_get_once / http_post_once exchange over the oracle: the
transport phase comes from the oracle, then the status-line parsing of
http_recv_response runs on the drained bytes. -/
def http_once (net : NetOracle) (n : Nat) : Except Error HttpResponse :=
  match net.attempt n with
  | Except.error e => Except.error e
  | Except.ok raw => http_recv_parse raw

/-- TOR_IP from src/torilate.h. -/
def TOR_IP : List Char := ("127.0.0.1").data

/-- TOR_PORT from src/torilate.h. -/
def TOR_PORT : Int := 9050

/-- The context line http_get and http_post attach to a failed
net_connect. -/
def torConnectMsg : List Char :=
  ("Cannot connect to TOR at ").data ++ TOR_IP ++ [ ':' ] ++ intToString TOR_PORT

/-- The redirect while-loop of http_get (src/http/http.c). remaining is
max_redirects minus redirects_followed, as a Nat: it is 0 exactly when
the C guard redirects_followed >= max_redirects holds. n numbers the
connect and once calls (0 was the initial attempt); the Attempt list
accumulates every once-exchange issued. -/
def http_get_loop (net : NetOracle) (max_redirects : Int) (remaining n : Nat)
    (parsed : ParsedURI) (cur : HttpResponse) (trace : List Attempt) :
    Except Error HttpResponse × List Attempt :=
  if 300 ≤ cur.status_code ∧ cur.status_code < 400 then
    match remaining with
    | 0 =>
      (Except.error (err_create ERR_HTTP_REDIRECT_LIMIT
        (some (("Exceeded maximum redirect limit of ").data ++
          intToString max_redirects))), trace)
    | remaining' + 1 =>
      match locScan cur.raw with
      | LocResult.noEnd =>
        (Except.error (err_create ERR_HTTP_REDIRECT_FAILED
          (some ("Failed to extract Location header").data)), trace)
      | LocResult.missing =>
        (Except.error (err_create ERR_HTTP_REDIRECT_FAILED
          (some ("Redirect missing Location header").data)), trace)
      | LocResult.found url =>
        match net.connect n with
        | Except.error e => (Except.error (err_propagate e (some torConnectMsg)), trace)
        | Except.ok _ =>
          if url.head? = some '/' then
            let att : Attempt := ⟨Method.GET, parsed.host, url, parsed.port, none⟩
            match http_once net n with
            | Except.error e => (Except.error e, trace ++ [att])
            | Except.ok resp =>
              http_get_loop net max_redirects remaining' (n + 1) parsed resp (trace ++ [att])
          else
            match parse_uri_err url with
            | Except.error e =>
              (Except.error (err_propagate e
                (some (("Failed to parse redirect URL: ").data ++ url))), trace)
            | Except.ok p2 =>
              let att : Attempt := ⟨Method.GET, p2.host, p2.path, p2.port, none⟩
              match http_once net n with
              | Except.error e =>
                (Except.error (err_propagate e
                  (some (("HTTP redirect failed to ").data ++ p2.host ++ [ ':' ] ++
                    intToString p2.port))), trace ++ [att])
              | Except.ok resp =>
                http_get_loop net max_redirects remaining' (n + 1) p2 resp (trace ++ [att])
  else (Except.ok cur, trace)

/-- http_get from src/http/http.c over the network oracle; the second
component lists every once-exchange the call issued. -/
def http_get (net : NetOracle) (uri : List Char) (follow_redirects : Bool)
    (max_redirects : Int) : Except Error HttpResponse × List Attempt :=
  match parse_uri_err uri with
  | Except.error e =>
    (Except.error (err_propagate e (some (("Failed to parse URI: ").data ++ uri))), [])
  | Except.ok parsed =>
    match net.connect 0 with
    | Except.error e => (Except.error (err_propagate e (some torConnectMsg)), [])
    | Except.ok _ =>
      let att0 : Attempt := ⟨Method.GET, parsed.host, parsed.path, parsed.port, none⟩
      match http_once net 0 with
      | Except.error e =>
        (Except.error (err_propagate e
          (some (("Failed to get HTTP response from ").data ++ parsed.host ++ [ ':' ] ++
            intToString parsed.port))), [att0])
      | Except.ok resp0 =>
        if follow_redirects then
          http_get_loop net max_redirects max_redirects.toNat 1 parsed resp0 [att0]
        else (Except.ok resp0, [att0])

/-- The redirect while-loop of http_post (src/http/http.c): like the GET
loop, plus the persistent use_post flag, cleared by a 301, 302 or 303
response (the method conversion logic) and left untouched by every
other 3xx status including 307 and 308; the body travels unchanged into
every once-exchange still using POST. -/
def http_post_loop (net : NetOracle) (max_redirects : Int) (body : Option (List Char))
    (remaining n : Nat) (use_post : Bool) (parsed : ParsedURI) (cur : HttpResponse)
    (trace : List Attempt) : Except Error HttpResponse × List Attempt :=
  if 300 ≤ cur.status_code ∧ cur.status_code < 400 then
    match remaining with
    | 0 =>
      (Except.error (err_create ERR_HTTP_REDIRECT_LIMIT
        (some (("Exceeded maximum redirect limit of ").data ++
          intToString max_redirects))), trace)
    | remaining' + 1 =>
      match locScan cur.raw with
      | LocResult.noEnd =>
        (Except.error (err_create ERR_HTTP_REDIRECT_FAILED
          (some ("Failed to extract Location header").data)), trace)
      | LocResult.missing =>
        (Except.error (err_create ERR_HTTP_REDIRECT_FAILED
          (some ("Redirect missing Location header").data)), trace)
      | LocResult.found url =>
        match net.connect n with
        | Except.error e => (Except.error (err_propagate e (some torConnectMsg)), trace)
        | Except.ok _ =>
          let use_post' : Bool :=
            if cur.status_code = 301 ∨ cur.status_code = 302 ∨ cur.status_code = 303
            then false else use_post
          if url.head? = some '/' then
            let att : Attempt :=
              ⟨if use_post' then Method.POST else Method.GET, parsed.host, url,
                parsed.port, if use_post' then body else none⟩
            match http_once net n with
            | Except.error e => (Except.error e, trace ++ [att])
            | Except.ok resp =>
              http_post_loop net max_redirects body remaining' (n + 1) use_post'
                parsed resp (trace ++ [att])
          else
            match parse_uri_err url with
            | Except.error e =>
              (Except.error (err_propagate e
                (some (("Failed to parse redirect URL: ").data ++ url))), trace)
            | Except.ok p2 =>
              let att : Attempt :=
                ⟨if use_post' then Method.POST else Method.GET, p2.host, p2.path,
                  p2.port, if use_post' then body else none⟩
              match http_once net n with
              | Except.error e => (Except.error e, trace ++ [att])
              | Except.ok resp =>
                http_post_loop net max_redirects body remaining' (n + 1) use_post'
                  p2 resp (trace ++ [att])
  else (Except.ok cur, trace)

/-- http_post from src/http/http.c over the network oracle; the second
component lists every once-exchange the call issued. -/
def http_post (net : NetOracle) (uri : List Char) (body : Option (List Char))
    (follow_redirects : Bool) (max_redirects : Int) :
    Except Error HttpResponse × List Attempt :=
  match parse_uri_err uri with
  | Except.error e =>
    (Except.error (err_propagate e (some (("Failed to parse URI: ").data ++ uri))), [])
  | Except.ok parsed =>
    match net.connect 0 with
    | Except.error e => (Except.error (err_propagate e (some torConnectMsg)), [])
    | Except.ok _ =>
      let att0 : Attempt := ⟨Method.POST, parsed.host, parsed.path, parsed.port, body⟩
      match http_once net 0 with
      | Except.error e =>
        (Except.error (err_propagate e
          (some (("Failed to POST to ").data ++ parsed.host ++ [ ':' ] ++
            intToString parsed.port))), [att0])
      | Except.ok resp0 =>
        if follow_redirects then
          http_post_loop net max_redirects body max_redirects.toNat 1 true parsed
            resp0 [att0]
        else (Except.ok resp0, [att0])

/-! Helper lemmas about the string-scanning primitives. -/

/-- A list is a Boolean prefix of itself followed by anything. -/
theorem isPrefixOf_append_self (l t : List Char) : l.isPrefixOf (l ++ t) = true := by
  rw [List.isPrefixOf_iff_prefix]
  exact List.prefix_append l t

/-- Two colon-free words followed by a colon match as prefixes only when
they are the same word. -/
theorem isPrefixOf_colon_eq {word scheme t u : List Char}
    (hw : ∀ c ∈ word, c ≠ ':') (hs : ∀ c ∈ scheme, c ≠ ':')
    (h : (word ++ ':' :: t).isPrefixOf (scheme ++ ':' :: u) = true) :
    word = scheme := by
  induction word generalizing scheme with
  | nil =>
    cases scheme with
    | nil => rfl
    | cons c s =>
      exfalso
      apply hs c (List.mem_cons_self c s)
      simp only [List.nil_append, List.cons_append, List.isPrefixOf,
        Bool.and_eq_true, beq_iff_eq] at h
      exact h.1.symm
  | cons w ws ih =>
    cases scheme with
    | nil =>
      exfalso
      apply hw w (List.mem_cons_self w ws)
      simp only [List.cons_append, List.nil_append, List.isPrefixOf,
        Bool.and_eq_true, beq_iff_eq] at h
      exact h.1
    | cons c s =>
      simp only [List.cons_append, List.isPrefixOf, Bool.and_eq_true, beq_iff_eq] at h
      have htail := ih (fun x hx => hw x (List.mem_cons_of_mem w hx))
        (fun x hx => hs x (List.mem_cons_of_mem c hx)) h.2
      rw [h.1, htail]

/-- strstr finds nothing when the pattern is not an infix. -/
theorem strstr_split_of_not_infix {hay pat : List Char} (h : ¬ pat <:+: hay) :
    strstr_split hay pat = none := by
  induction hay with
  | nil =>
    have hpre : pat.isPrefixOf ([] : List Char) = false := by
      cases hp : pat.isPrefixOf ([] : List Char)
      · rfl
      · exact absurd ((List.isPrefixOf_iff_prefix.mp hp).isInfix) h
    simp [strstr_split, hpre]
  | cons c t ih =>
    have hpre : pat.isPrefixOf (c :: t) = false := by
      cases hp : pat.isPrefixOf (c :: t)
      · rfl
      · exact absurd ((List.isPrefixOf_iff_prefix.mp hp).isInfix) h
    have h' : ¬ pat <:+: t := fun hi => h (List.infix_cons hi)
    simp [strstr_split, hpre, ih h']

/-- strstr splits at the separator when everything before it is free of
the pattern's first character (a colon). -/
theorem strstr_split_at_colon (scheme suffix pat : List Char)
    (hpat : ∃ q, pat = ':' :: q) (hpre : pat.isPrefixOf suffix = true)
    (hs : ∀ c ∈ scheme, c ≠ ':') :
    strstr_split (scheme ++ suffix) pat = some (scheme, suffix) := by
  induction scheme with
  | nil =>
    rw [List.nil_append, strstr_split.eq_def]
    simp [hpre]
  | cons c s ih =>
    obtain ⟨q, rfl⟩ := hpat
    have hc : c ≠ ':' := hs c (List.mem_cons_self c s)
    have hcc : ((':' : Char) == c) = false := by
      simp only [beq_eq_false_iff_ne, ne_eq]
      exact fun hh => hc hh.symm
    have hcond : (':' :: q).isPrefixOf (c :: (s ++ suffix)) = false := by
      simp [List.isPrefixOf, hcc]
    have ihs := ih (fun x hx => hs x (List.mem_cons_of_mem c hx))
    simp [strstr_split, hcond, ihs]

/-- strstr splits exactly at a ": " delimiter preceded by text that does
not itself contain the delimiter. -/
theorem strstr_split_at_chainSep (a b : List Char) (h : ¬ chainSep <:+: a) :
    strstr_split (a ++ ':' :: ' ' :: b) chainSep = some (a, ':' :: ' ' :: b) := by
  induction a with
  | nil => simp [strstr_split, chainSep, List.isPrefixOf]
  | cons c a' ih =>
    have h' : ¬ chainSep <:+: a' := fun hi => h (List.infix_cons hi)
    have hcond : chainSep.isPrefixOf (c :: (a' ++ ':' :: ' ' :: b)) = false := by
      by_cases hc : c = ':'
      · subst hc
        cases a' with
        | nil => simp [chainSep, List.isPrefixOf]
        | cons d a'' =>
          by_cases hd : d = ' '
          · exfalso
            apply h
            subst hd
            exact ⟨[], a'', rfl⟩
          · have hds : ((' ' : Char) == d) = false := by
              simp only [beq_eq_false_iff_ne, ne_eq]
              exact fun hh => hd hh.symm
            simp [chainSep, List.isPrefixOf, hds]
      · have hcs : ((':' : Char) == c) = false := by
          simp only [beq_eq_false_iff_ne, ne_eq]
          exact fun hh => hc hh.symm
        simp [chainSep, List.isPrefixOf, hcs]
    simp [strstr_split, hcond, ih h']

/-- strchr finds nothing when the character is absent. -/
theorem strchr_split_of_not_mem {s : List Char} {ch : Char} (h : ch ∉ s) :
    strchr_split s ch = none := by
  induction s with
  | nil => rfl
  | cons c t ih =>
    have hc : c ≠ ch := fun hh => h (hh ▸ List.mem_cons_self c t)
    have ht : ch ∉ t := fun hh => h (List.mem_cons_of_mem c hh)
    simp [strchr_split, hc, ih ht]

/-- strchr splits at the first occurrence of the character. -/
theorem strchr_split_first (a : List Char) (ch : Char) (b : List Char)
    (h : ch ∉ a) : strchr_split (a ++ ch :: b) ch = some (a, ch :: b) := by
  induction a with
  | nil => simp [strchr_split]
  | cons c a' ih =>
    have hc : c ≠ ch := fun hh => h (hh ▸ List.mem_cons_self c a')
    have ha : ch ∉ a' := fun hh => h (List.mem_cons_of_mem c hh)
    simp [strchr_split, hc, ih ha]

/-- splitChain on delimiter-free text is a single segment. -/
theorem splitChain_of_not_infix {msg : List Char} (h : ¬ chainSep <:+: msg) :
    splitChain msg = [msg] := by
  induction msg with
  | nil => rfl
  | cons c rest ih =>
    cases rest with
    | nil => rfl
    | cons d rest' =>
      have hcond : ¬ (c = ':' ∧ d = ' ') := by
        rintro ⟨rfl, rfl⟩
        exact h ⟨[], rest', rfl⟩
      have h' : ¬ chainSep <:+: (d :: rest') := fun hi => h (List.infix_cons hi)
      simp [splitChain, hcond, ih h']

/-- splitChain peels off the text before a ": " delimiter as the first
segment. -/
theorem splitChain_append (a b : List Char) (h : ¬ chainSep <:+: a) :
    splitChain (a ++ ':' :: ' ' :: b) = a :: splitChain b := by
  induction a with
  | nil => simp [splitChain]
  | cons c a' ih =>
    have h' : ¬ chainSep <:+: a' := fun hi => h (List.infix_cons hi)
    cases a' with
    | nil =>
      have hcond : ¬ (c = ':' ∧ (':' : Char) = ' ') := by
        rintro ⟨-, hh⟩
        exact absurd hh (by decide)
      simp [splitChain, hcond]
    | cons d a'' =>
      have hcond : ¬ (c = ':' ∧ d = ' ') := by
        rintro ⟨rfl, rfl⟩
        exact h ⟨[], a'', by simp [chainSep]⟩
      have hstep := ih h'
      simp only [List.cons_append] at hstep ⊢
      simp [splitChain, hcond, hstep]

/-! C1: the SOCKS4 request built for an IPv4 destination. The claim
asserts a single 0x00 terminator and total length 2+2+4+len(uid)+1, but
the code appends the SOCKS4a domain terminator unconditionally, so the
IPv4 request ends in two 0x00 bytes and is one byte longer. -/

/-- C1. Evaluating the request builder at the failing input: for the
IPv4 destination 93.184.216.34:80 with user id "torilate" the request
is version, command, big-endian port, the four literal IP bytes, the
user-id bytes, and then TWO 0x00 terminators, for a total of
2+2+4+len(user-id)+2 bytes instead of the +1 the claim states. -/
theorem socks4_ipv4_request_bytes :
    socks4_build_request ("93.184.216.34").data 80 (some ("torilate").data)
        NetAddrType.IPV4 =
      Except.ok ([4, 1, 0, 80, 93, 184, 216, 34] ++
        ("torilate").data.map Char.toNat ++ [0, 0]) ∧
    ([4, 1, 0, 80, 93, 184, 216, 34] ++ ("torilate").data.map Char.toNat ++
        [0, 0]).length = 2 + 2 + 4 + ("torilate").data.length + 2 ∧
    2 + 2 + 4 + ("torilate").data.length + 2 ≠
      2 + 2 + 4 + ("torilate").data.length + 1 := by
  exact ⟨rfl, by decide, by decide⟩

/-! C2: the SOCKS4a request built for a domain-name destination. -/

/-- C2. For every domain-kind destination the request carries the
reserved IP 0.0.0.1 in the four-byte address field and the literal
domain name with its own 0x00 terminator after the user-id terminator;
the domain text flows into the request untouched, so no resolution of
it happens on this path. -/
theorem socks4a_request_layout (domain : List Char) (port : Nat)
    (user_id : Option (List Char)) (hport : port < 65536) :
    socks4_build_request domain port user_id NetAddrType.DOMAIN =
      Except.ok ([4, 1, port / 256, port % 256, 0, 0, 0, 1] ++ uidBytes user_id ++
        [0] ++ domain.map Char.toNat ++ [0]) := by
  have hdiv : port / 256 < 256 := Nat.div_lt_of_lt_mul (by omega)
  have hmod : port / 256 % 256 = port / 256 := Nat.mod_eq_of_lt hdiv
  have hip : net_parse_ipv4 ("0.0.0.1").data = Except.ok [0, 0, 0, 1] := rfl
  simp [socks4_build_request, portBytes, hip, hmod]

/-- C2 witness: the layout at domain "example.com", port 80, user id
"torilate". -/
theorem socks4a_request_layout_witness :
    socks4_build_request ("example.com").data 80 (some ("torilate").data)
        NetAddrType.DOMAIN =
      Except.ok ([4, 1, 0, 80, 0, 0, 0, 1] ++ uidBytes (some ("torilate").data) ++
        [0] ++ ("example.com").data.map Char.toNat ++ [0]) := by
  have h := socks4a_request_layout ("example.com").data 80 (some ("torilate").data)
    (by decide)
  simpa using h

/-! C3: the reply checks of socks4_connect. -/

/-- C3. The reply phase succeeds exactly when the receive produced 8
bytes whose first byte is 0x00 and whose second is the request-granted
status 90; a read of any other length is the short-read failure; an
8-byte reply with any other first or second byte is the
connection-rejected error whose message carries the raw status byte and
the destination host and port; a transport error is propagated. -/
theorem socks4_reply_check_spec (ip : List Char) (port : Nat)
    (r : Except Error (List Nat)) :
    (socks4_check_reply ip port r = Except.ok () ↔
      ∃ bs, r = Except.ok bs ∧ bs.length = 8 ∧ bs.getD 0 0 = 0 ∧ bs.getD 1 0 = 90) ∧
    (∀ bs, r = Except.ok bs → bs.length ≠ 8 →
      socks4_check_reply ip port r =
        Except.error (err_create ERR_NET_RECV_FAILED
          (some (("Expected 8 bytes in SOCKS4 response but received ").data ++
            natToString bs.length)))) ∧
    (∀ bs, r = Except.ok bs → bs.length = 8 →
      (bs.getD 0 0 ≠ 0 ∨ bs.getD 1 0 ≠ 90) →
      socks4_check_reply ip port r =
        Except.error (err_create ERR_CONNECTION_FAILED
          (some (("SOCKS4 request rejected (VN=").data ++
            natToString (bs.getD 0 0) ++ (", CD=").data ++
            natToString (bs.getD 1 0) ++ (") for ").data ++
            ip ++ [ ':' ] ++ natToString port)))) ∧
    (∀ e, r = Except.error e →
      socks4_check_reply ip port r =
        Except.error (err_propagate e
          (some ("Failed to receive SOCKS4 response").data))) := by
  refine ⟨?_, ?_, ?_, ?_⟩
  · constructor
    · intro hok
      cases r with
      | error e => simp [socks4_check_reply] at hok
      | ok bs =>
        refine ⟨bs, rfl, ?_⟩
        by_cases h8 : bs.length = 8
        · by_cases hcond : bs.getD 0 0 ≠ 0 ∨ bs.getD 1 0 ≠ SOCKS4_OK
          · exfalso
            have hlen : ¬ bs.length ≠ 8 := by simp [h8]
            simp only [socks4_check_reply] at hok
            rw [if_neg hlen, if_pos hcond] at hok
            simp at hok
          · push_neg at hcond
            exact ⟨h8, hcond.1, by simpa [SOCKS4_OK] using hcond.2⟩
        · exfalso
          simp only [socks4_check_reply] at hok
          rw [if_pos h8] at hok
          simp at hok
    · rintro ⟨bs, rfl, h8, h0, h1⟩
      have hlen : ¬ bs.length ≠ 8 := by simp [h8]
      have hcond : ¬ (bs.getD 0 0 ≠ 0 ∨ bs.getD 1 0 ≠ SOCKS4_OK) := by
        push_neg
        exact ⟨h0, h1⟩
      simp only [socks4_check_reply]
      rw [if_neg hlen, if_neg hcond]
  · rintro bs rfl h8
    simp only [socks4_check_reply]
    rw [if_pos h8]
  · rintro bs rfl h8 hbad
    have hlen : ¬ bs.length ≠ 8 := by simp [h8]
    have hcond : bs.getD 0 0 ≠ 0 ∨ bs.getD 1 0 ≠ SOCKS4_OK := by
      simpa [SOCKS4_OK] using hbad
    simp only [socks4_check_reply]
    rw [if_neg hlen, if_pos hcond]
  · rintro e rfl
    simp [socks4_check_reply]

/-- C3 witness: a transportless run receiving the 8-byte reply 0x00 91
(request rejected) for destination example.com:80 produces the
connection-rejected error whose text holds the status byte 91 and the
destination. -/
theorem socks4_reply_check_spec_witness :
    socks4_check_reply ("example.com").data 80
        (Except.ok [0, 91, 0, 0, 0, 0, 0, 0]) =
      Except.error (err_create ERR_CONNECTION_FAILED
        (some (("SOCKS4 request rejected (VN=").data ++ natToString 0 ++
          (", CD=").data ++ natToString 91 ++ (") for ").data ++
          ("example.com").data ++ [ ':' ] ++ natToString 80))) := by
  have h := (socks4_reply_check_spec ("example.com").data 80
    (Except.ok [0, 91, 0, 0, 0, 0, 0, 0])).2.2.1
    [0, 91, 0, 0, 0, 0, 0, 0] rfl (by decide) (by decide)
  simpa using h

/-! C8: the send loop of net_send_all. The claim (and the repository's
own error handling guide) require a zero-length write mid-loop to be a
partial-write failure; the code only tests for a negative return, so a
zero-length write is silently retried: the loop never returns while the
transport keeps returning zero, and silently succeeds when a later call
accepts the bytes. -/

/-- On a transport that always returns 0 the loop never finishes, for
any number of observed iterations. -/
theorem net_send_all_go_zero (fuel k : Nat) :
    net_send_all_go (fun _ => 0) (fun _ => 0) 1 fuel k 0 = none := by
  induction fuel generalizing k with
  | zero => rfl
  | succ f ih => simpa [net_send_all_go] using ih (k + 1)

/-- C8. Evaluating the send loop at the failing input: with one byte
requested and a transport whose send returns 0, net_send_all never
returns (no iteration bound suffices), and with a transport returning 0
once and then accepting the byte it silently succeeds — in both cases a
zero-length write mid-loop is not the partial-write failure the claim
requires. -/
theorem net_send_all_zero_write_spins :
    (∀ fuel, net_send_all (fun _ => 0) (fun _ => 0) 1 fuel = none) ∧
    net_send_all (fun k => if k = 0 then 0 else 1) (fun _ => 0) 1 3 =
      some (Except.ok ()) := by
  exact ⟨fun fuel => net_send_all_go_zero fuel 0, rfl⟩

/-! C9: the concise error rendering. The fragment before the first ": "
is what the simple mode shows, but by the data model that fragment is
the OUTERMOST (most recently added) context segment, not the innermost
one the claim names. -/

/-- C9 counterexample: propagating "outer layer" around the terminal
cause "terminal cause" yields the message "outer layer: terminal
cause"; the concise extraction shows "outer layer", while the innermost
(last) segment of the chain is "terminal cause". -/
theorem concise_view_not_innermost :
    (extract_top_level_error (err_propagate (err_create ERR_NETWORK_IO_CODE
        (some ("terminal cause").data)) (some ("outer layer").data)).message =
      ("outer layer").data) ∧
    ((splitChain (err_propagate (err_create ERR_NETWORK_IO_CODE
        (some ("terminal cause").data)) (some ("outer layer").data)).message).getLast? =
      some ("terminal cause").data) ∧
    ("outer layer").data ≠ ("terminal cause").data := by
  exact ⟨rfl, rfl, by decide⟩

/-- C9 amended. The concise view is the fragment before the first ": "
(the whole message when no delimiter occurs), and that fragment is the
first, outermost context segment of the chain — the one err_propagate
added last — not the innermost one; get_err_msg in non-verbose mode
renders exactly this fragment after its program-name/code/base-message
prefix. -/
theorem concise_view_outermost_segment
    (a b : List Char) (ha : ¬ chainSep <:+: a) (hlen : a.length ≤ 511) :
    extract_top_level_error (a ++ ':' :: ' ' :: b) = a ∧
    (∀ msg : List Char, ¬ chainSep <:+: msg → extract_top_level_error msg = msg) ∧
    (splitChain (a ++ ':' :: ' ' :: b)).head? = some a ∧
    (∀ e : Error, e.message ≠ [] → a.length + 2 + e.message.length ≤ 511 →
      extract_top_level_error (err_propagate e (some a)).message = a) ∧
    (∀ err : Error, err.message ≠ [] → extract_top_level_error err.message ≠ [] →
      (get_err_msg err false).1 =
        (PROG_NAME ++ (": (").data ++ intToString err.code ++ (") ").data ++
          err_messg_list (if err.code < 0 ∨ nerr ≤ err.code then 23 else err.code) ++
          chainSep ++ extract_top_level_error err.message).take 511) := by
  have hsplit := strstr_split_at_chainSep a b ha
  refine ⟨?_, ?_, ?_, ?_, ?_⟩
  · simp [extract_top_level_error, hsplit, List.take_of_length_le hlen]
  · intro msg hmsg
    simp [extract_top_level_error, strstr_split_of_not_infix hmsg]
  · simp [splitChain_append a b ha]
  · intro e hmsg hsum
    have hctx : a.take 511 = a := List.take_of_length_le hlen
    have hcs2 : chainSep.length = 2 := rfl
    have hfull : (a ++ chainSep ++ e.message).length ≤ 511 := by
      simp only [List.length_append, hcs2]
      omega
    have hmsg' : (err_propagate e (some a)).message = a ++ ':' :: ' ' :: e.message := by
      simp only [err_propagate]
      rw [if_neg hmsg]
      simp only [hctx]
      rw [List.take_of_length_le hfull]
      simp [chainSep]
    rw [hmsg']
    have hsplit2 := strstr_split_at_chainSep a e.message ha
    simp [extract_top_level_error, hsplit2, hctx]
  · intro err hmsg hex
    simp [get_err_msg, hmsg, hex]

/-- C9 amended witness: the concise view of "outer layer: terminal
cause" is the outermost segment "outer layer". -/
theorem concise_view_outermost_segment_witness :
    extract_top_level_error (("outer layer").data ++ ':' :: ' ' ::
      ("terminal cause").data) = ("outer layer").data := by
  exact (concise_view_outermost_segment ("outer layer").data
    ("terminal cause").data (by decide) (by decide)).1

/-! C10: err_propagate preserves the error code and prefixes the new
context. -/

/-- C10. Propagation never changes the code (with or without a context
format), and with a context present and a non-empty wrapped message the
result is the context, the ": " delimiter, then the original message —
verbatim whenever the combination fits the 511-character message
buffer, truncated to 511 characters otherwise. -/
theorem err_propagate_preserves_code (e : Error) (ctx : List Char)
    (hctx : ctx.length ≤ 511) :
    (∀ fmt : Option (List Char), (err_propagate e fmt).code = e.code) ∧
    (e.message ≠ [] →
      (err_propagate e (some ctx)).message = (ctx ++ chainSep ++ e.message).take 511) ∧
    (e.message ≠ [] → ctx.length + 2 + e.message.length ≤ 511 →
      (err_propagate e (some ctx)).message = ctx ++ chainSep ++ e.message) := by
  have hctx' : ctx.take 511 = ctx := List.take_of_length_le hctx
  refine ⟨?_, ?_, ?_⟩
  · intro fmt
    cases fmt with
    | none => rfl
    | some c =>
      by_cases hm : e.message = []
      · simp [err_propagate, hm]
      · simp [err_propagate, hm]
  · intro hm
    simp [err_propagate, hm, hctx']
  · intro hm hsum
    have hcs2 : chainSep.length = 2 := rfl
    have hfull : (ctx ++ chainSep ++ e.message).length ≤ 511 := by
      simp only [List.length_append, hcs2]
      omega
    simp only [err_propagate]
    rw [if_neg hm]
    simp only [hctx']
    exact List.take_of_length_le hfull


/-! C6: parse_uri on an unsupported scheme. -/

/-- C6. For an input of the form scheme://rest with a colon-free scheme
that is neither "http" nor "https" (matched case-sensitively), parse_uri
fails — it returns the non-success code ERR_INVALID_URI — marking the
schema field with the unsupported-scheme value INVALID_SCHEMA and
capturing the offending scheme name in the host field; no other field
is written. -/
theorem parse_uri_unsupported_scheme (scheme rest : List Char)
    (hs : ∀ c ∈ scheme, c ≠ ':')
    (h1 : scheme ≠ ("http").data) (h2 : scheme ≠ ("https").data) :
    parse_uri (scheme ++ ("://").data ++ rest) =
      (ERR_INVALID_URI,
        { schema := some Schema.INVALID_SCHEMA, host := some scheme }) ∧
    ERR_INVALID_URI ≠ SUCCESS := by
  refine ⟨?_, by decide⟩
  rw [List.append_assoc]
  have hsep : ("://").data ++ rest = ':' :: ('/' :: '/' :: rest) := rfl
  have hehttp : ("http://").data = ("http").data ++ (':' :: ('/' :: '/' :: [])) := by decide
  have hehttps : ("https://").data = ("https").data ++ (':' :: ('/' :: '/' :: [])) := by decide
  have hhttp : ("http://").data.isPrefixOf (scheme ++ (("://").data ++ rest)) = false := by
    cases hb : ("http://").data.isPrefixOf (scheme ++ (("://").data ++ rest)) with
    | false => rfl
    | true =>
      exfalso
      rw [hehttp, hsep] at hb
      exact h1 (isPrefixOf_colon_eq (by decide) hs hb).symm
  have hhttps : ("https://").data.isPrefixOf (scheme ++ (("://").data ++ rest)) = false := by
    cases hb : ("https://").data.isPrefixOf (scheme ++ (("://").data ++ rest)) with
    | false => rfl
    | true =>
      exfalso
      rw [hehttps, hsep] at hb
      exact h2 (isPrefixOf_colon_eq (by decide) hs hb).symm
  have hsplit : strstr_split (scheme ++ (("://").data ++ rest)) ("://").data =
      some (scheme, ("://").data ++ rest) :=
    strstr_split_at_colon scheme (("://").data ++ rest) ("://").data
      ⟨'/' :: '/' :: [], rfl⟩ (isPrefixOf_append_self ("://").data rest) hs
  simp only [parse_uri, hhttp, hhttps, hsplit, Bool.false_eq_true, if_false]

/-- C6 witness: parse("ftp://x.com") fails with the scheme fragment
"ftp" captured in the host field. -/
theorem parse_uri_unsupported_scheme_witness :
    parse_uri (("ftp://x.com").data) =
      (ERR_INVALID_URI,
        { schema := some Schema.INVALID_SCHEMA, host := some ("ftp").data }) ∧
    ERR_INVALID_URI ≠ SUCCESS := by
  exact parse_uri_unsupported_scheme ("ftp").data ("x.com").data
    (by decide) (by decide) (by decide)

/-! C7: parse_uri defaults without a scheme prefix. -/

/-- C7. For a URI with no scheme separator anywhere, a host free of
slashes and colons (so no explicit port), parse_uri succeeds with the
schema defaulted to HTTP and the port to 80; a present path (everything
from the first slash) is kept verbatim, and an absent path defaults to
"/". -/
theorem parse_uri_defaults (host rest : List Char)
    (hni : ¬ ("://").data <:+: host ++ '/' :: rest)
    (hslash : '/' ∉ host) (hcolon : ':' ∉ host) :
    parse_uri (host ++ '/' :: rest) =
      (SUCCESS, { schema := some Schema.HTTP, host := some host,
                  path := some ('/' :: rest), port := some 80,
                  addr_type := some (net_get_addr_type host) }) ∧
    parse_uri host =
      (SUCCESS, { schema := some Schema.HTTP, host := some host,
                  path := some [ '/' ], port := some 80,
                  addr_type := some (net_get_addr_type host) }) := by
  have hniHost : ¬ ("://").data <:+: host := by
    intro hi
    exact hni (hi.trans (List.prefix_append host ('/' :: rest)).isInfix)
  have noPrefix : ∀ u : List Char, ¬ ("://").data <:+: u →
      ("http://").data.isPrefixOf u = false ∧ ("https://").data.isPrefixOf u = false := by
    intro u hu
    constructor
    · cases hb : ("http://").data.isPrefixOf u with
      | false => rfl
      | true =>
        exfalso
        apply hu
        have hp : ("http://").data <+: u := List.isPrefixOf_iff_prefix.mp hb
        exact List.IsInfix.trans (by decide) hp.isInfix
    · cases hb : ("https://").data.isPrefixOf u with
      | false => rfl
      | true =>
        exfalso
        apply hu
        have hp : ("https://").data <+: u := List.isPrefixOf_iff_prefix.mp hb
        exact List.IsInfix.trans (by decide) hp.isInfix
  constructor
  · obtain ⟨hh1, hh2⟩ := noPrefix (host ++ '/' :: rest) hni
    have hstr := strstr_split_of_not_infix hni
    have hchr := strchr_split_first host '/' rest hslash
    have hport := strchr_split_of_not_mem hcolon
    simp [parse_uri, hh1, hh2, hstr, hchr, hport]
  · obtain ⟨hh1, hh2⟩ := noPrefix host hniHost
    have hstr := strstr_split_of_not_infix hniHost
    have hchr := strchr_split_of_not_mem hslash
    have hport := strchr_split_of_not_mem hcolon
    simp [parse_uri, hh1, hh2, hstr, hchr, hport]

/-- C7 witness: parse("example.com/api") gives schema HTTP, host
"example.com", port 80, path "/api" (and domain-name address kind). -/
theorem parse_uri_defaults_witness :
    parse_uri (("example.com/api").data) =
      (SUCCESS, { schema := some Schema.HTTP, host := some ("example.com").data,
                  path := some (("/api").data), port := some 80,
                  addr_type := some NetAddrType.DOMAIN }) := by
  have h := (parse_uri_defaults ("example.com").data ("api").data
    (by decide) (by decide) (by decide)).1
  have hdom : net_get_addr_type ("example.com").data = NetAddrType.DOMAIN := by decide
  rw [hdom] at h
  exact h

/-! C4: the redirect limit and loop termination. Helper lemmas first:
an unconditional bound on the number of once-exchanges both loops can
issue, and the exact limit behavior when every response keeps the loop
going. -/

/-- The GET redirect loop issues at most `remaining` further
once-exchanges, whatever the network does. -/
theorem http_get_loop_length_le (net : NetOracle) (maxr : Int) :
    ∀ (remaining n : Nat) (parsed : ParsedURI) (cur : HttpResponse)
      (trace : List Attempt),
      (http_get_loop net maxr remaining n parsed cur trace).2.length ≤
        trace.length + remaining
  | 0, n, parsed, cur, trace => by
    unfold http_get_loop
    split
    · simp
    · simp
  | (r + 1), n, parsed, cur, trace => by
    unfold http_get_loop
    split
    · cases hloc : locScan cur.raw with
      | noEnd => simp
      | missing => simp
      | found url =>
        simp only
        cases hconn : net.connect n with
        | error e => simp
        | ok u =>
          simp only
          by_cases hurl : url.head? = some '/'
          · rw [if_pos hurl]
            cases honce : http_once net n with
            | error e => simp
            | ok resp =>
              simp only
              have hrec := http_get_loop_length_le net maxr r (n + 1) parsed resp
                (trace ++ [⟨Method.GET, parsed.host, url, parsed.port, none⟩])
              simp only [List.length_append, List.length_cons, List.length_nil] at hrec
              omega
          · rw [if_neg hurl]
            cases hp : parse_uri_err url with
            | error e => simp
            | ok p2 =>
              simp only
              cases honce : http_once net n with
              | error e => simp
              | ok resp =>
                simp only
                have hrec := http_get_loop_length_le net maxr r (n + 1) p2 resp
                  (trace ++ [⟨Method.GET, p2.host, p2.path, p2.port, none⟩])
                simp only [List.length_append, List.length_cons, List.length_nil] at hrec
                omega
    · simp

/-- The POST redirect loop issues at most `remaining` further
once-exchanges, whatever the network does. -/
theorem http_post_loop_length_le (net : NetOracle) (maxr : Int)
    (body : Option (List Char)) :
    ∀ (remaining n : Nat) (use_post : Bool) (parsed : ParsedURI)
      (cur : HttpResponse) (trace : List Attempt),
      (http_post_loop net maxr body remaining n use_post parsed cur trace).2.length ≤
        trace.length + remaining
  | 0, n, use_post, parsed, cur, trace => by
    unfold http_post_loop
    split
    · simp
    · simp
  | (r + 1), n, use_post, parsed, cur, trace => by
    unfold http_post_loop
    split
    · cases hloc : locScan cur.raw with
      | noEnd => simp
      | missing => simp
      | found url =>
        simp only
        cases hconn : net.connect n with
        | error e => simp
        | ok u =>
          simp only
          by_cases hurl : url.head? = some '/'
          · rw [if_pos hurl]
            cases honce : http_once net n with
            | error e => simp
            | ok resp =>
              simp only
              refine le_trans
                (http_post_loop_length_le net maxr body r (n + 1) _ parsed resp _) ?_
              simp only [List.length_append, List.length_cons, List.length_nil]
              omega
          · rw [if_neg hurl]
            cases hp : parse_uri_err url with
            | error e => simp
            | ok p2 =>
              simp only
              cases honce : http_once net n with
              | error e => simp
              | ok resp =>
                simp only
                refine le_trans
                  (http_post_loop_length_le net maxr body r (n + 1) _ p2 resp _) ?_
                simp only [List.length_append, List.length_cons, List.length_nil]
                omega
    · simp

/-- When every response is a 3xx carrying a slash-relative Location,
the GET redirect loop runs down its whole budget and ends in the
redirect-limit error, having issued exactly `remaining` further
once-exchanges. -/
theorem http_get_loop_limit (net : NetOracle) (maxr : Int)
    (resp : Nat → HttpResponse)
    (hconn : ∀ k, net.connect k = Except.ok ())
    (hok : ∀ k, http_once net k = Except.ok (resp k))
    (h3xx : ∀ k, 300 ≤ (resp k).status_code ∧ (resp k).status_code < 400)
    (hloc : ∀ k, ∃ u, locScan (resp k).raw = LocResult.found u ∧ u.head? = some '/') :
    ∀ (remaining n : Nat) (parsed : ParsedURI) (cur : HttpResponse)
      (trace : List Attempt),
      300 ≤ cur.status_code → cur.status_code < 400 →
      (∃ u, locScan cur.raw = LocResult.found u ∧ u.head? = some '/') →
      ∃ tr, http_get_loop net maxr remaining n parsed cur trace =
          (Except.error (err_create ERR_HTTP_REDIRECT_LIMIT
            (some (("Exceeded maximum redirect limit of ").data ++
              intToString maxr))), tr) ∧
        tr.length = trace.length + remaining
  | 0, n, parsed, cur, trace => by
    intro hlo hhi _
    refine ⟨trace, ?_, by simp⟩
    unfold http_get_loop
    rw [if_pos ⟨hlo, hhi⟩]
  | (r + 1), n, parsed, cur, trace => by
    intro hlo hhi hcurloc
    obtain ⟨u, hu, hhead⟩ := hcurloc
    obtain ⟨tr, htr, hlen⟩ := http_get_loop_limit net maxr resp hconn hok h3xx hloc
      r (n + 1) parsed (resp n)
      (trace ++ [⟨Method.GET, parsed.host, u, parsed.port, none⟩])
      (h3xx n).1 (h3xx n).2 (hloc n)
    refine ⟨tr, ?_, by simp at hlen ⊢; omega⟩
    unfold http_get_loop
    rw [if_pos ⟨hlo, hhi⟩]
    simp only [hu, hconn n, if_pos hhead, hok n]
    exact htr

/-- When every response is a 3xx carrying a slash-relative Location,
the POST redirect loop runs down its whole budget and ends in the
redirect-limit error, having issued exactly `remaining` further
once-exchanges. -/
theorem http_post_loop_limit (net : NetOracle) (maxr : Int)
    (body : Option (List Char)) (resp : Nat → HttpResponse)
    (hconn : ∀ k, net.connect k = Except.ok ())
    (hok : ∀ k, http_once net k = Except.ok (resp k))
    (h3xx : ∀ k, 300 ≤ (resp k).status_code ∧ (resp k).status_code < 400)
    (hloc : ∀ k, ∃ u, locScan (resp k).raw = LocResult.found u ∧ u.head? = some '/') :
    ∀ (remaining n : Nat) (use_post : Bool) (parsed : ParsedURI)
      (cur : HttpResponse) (trace : List Attempt),
      300 ≤ cur.status_code → cur.status_code < 400 →
      (∃ u, locScan cur.raw = LocResult.found u ∧ u.head? = some '/') →
      ∃ tr, http_post_loop net maxr body remaining n use_post parsed cur trace =
          (Except.error (err_create ERR_HTTP_REDIRECT_LIMIT
            (some (("Exceeded maximum redirect limit of ").data ++
              intToString maxr))), tr) ∧
        tr.length = trace.length + remaining
  | 0, n, use_post, parsed, cur, trace => by
    intro hlo hhi _
    refine ⟨trace, ?_, by simp⟩
    unfold http_post_loop
    rw [if_pos ⟨hlo, hhi⟩]
  | (r + 1), n, use_post, parsed, cur, trace => by
    intro hlo hhi hcurloc
    obtain ⟨u, hu, hhead⟩ := hcurloc
    obtain ⟨tr, htr, hlen⟩ := http_post_loop_limit net maxr body resp hconn hok h3xx hloc
      r (n + 1)
      (if cur.status_code = 301 ∨ cur.status_code = 302 ∨ cur.status_code = 303
       then false else use_post)
      parsed (resp n)
      (trace ++ [⟨(if (if cur.status_code = 301 ∨ cur.status_code = 302 ∨
            cur.status_code = 303 then false else use_post) then Method.POST
          else Method.GET), parsed.host, u, parsed.port,
        (if (if cur.status_code = 301 ∨ cur.status_code = 302 ∨
            cur.status_code = 303 then false else use_post) then body else none)⟩])
      (h3xx n).1 (h3xx n).2 (hloc n)
    refine ⟨tr, ?_, by simp at hlen ⊢; omega⟩
    unfold http_post_loop
    rw [if_pos ⟨hlo, hhi⟩]
    simp only [hu, hconn n, if_pos hhead, hok n]
    exact htr

/-- C4 counterexample: with every response a 3xx (302) but carrying no
Location header, http_get with follow enabled and max_redirects 1 does
not return the redirect-limit error the claim demands; it fails with
the different redirect-failed code. -/
theorem redirect_without_location_not_limit :
    (http_get ⟨fun _ => Except.ok (), fun _ =>
        Except.ok (("HTTP/1.1 302 Found\r\n\r\n").data)⟩
      ("example.com").data true 1).1 =
      Except.error (err_create ERR_HTTP_REDIRECT_FAILED
        (some ("Redirect missing Location header").data)) ∧
    ERR_HTTP_REDIRECT_FAILED ≠ ERR_HTTP_REDIRECT_LIMIT := by
  exact ⟨rfl, by decide⟩

/-- C4 amended. When follow-redirects is on and every response is a 3xx
carrying a (slash-relative) Location header, http_get and http_post
follow exactly max_redirects redirects and then fail with the
redirect-limit error (so max_redirects + 1 exchanges in total); and for
any network behavior whatsoever both entry points issue at most
max_redirects + 1 exchanges, so the redirect loop never runs
unboundedly. -/
theorem redirect_limit_and_termination (net : NetOracle) (resp : Nat → HttpResponse)
    (hconn : ∀ k, net.connect k = Except.ok ())
    (hok : ∀ k, http_once net k = Except.ok (resp k))
    (h3xx : ∀ k, 300 ≤ (resp k).status_code ∧ (resp k).status_code < 400)
    (hloc : ∀ k, ∃ u, locScan (resp k).raw = LocResult.found u ∧ u.head? = some '/')
    (uri : List Char) (p0 : ParsedURI) (hp : parse_uri_err uri = Except.ok p0)
    (maxr : Int) (body : Option (List Char)) :
    ((http_get net uri true maxr).1 =
      Except.error (err_create ERR_HTTP_REDIRECT_LIMIT
        (some (("Exceeded maximum redirect limit of ").data ++ intToString maxr))) ∧
     (http_get net uri true maxr).2.length = maxr.toNat + 1) ∧
    ((http_post net uri body true maxr).1 =
      Except.error (err_create ERR_HTTP_REDIRECT_LIMIT
        (some (("Exceeded maximum redirect limit of ").data ++ intToString maxr))) ∧
     (http_post net uri body true maxr).2.length = maxr.toNat + 1) ∧
    (∀ (net2 : NetOracle) (u2 : List Char) (m2 : Int) (b2 : Option (List Char)),
      (http_get net2 u2 true m2).2.length ≤ m2.toNat + 1 ∧
      (http_post net2 u2 b2 true m2).2.length ≤ m2.toNat + 1) := by
  refine ⟨?_, ?_, ?_⟩
  · obtain ⟨tr, htr, hlen⟩ := http_get_loop_limit net maxr resp hconn hok h3xx hloc
      maxr.toNat 1 p0 (resp 0)
      [⟨Method.GET, p0.host, p0.path, p0.port, none⟩]
      (h3xx 0).1 (h3xx 0).2 (hloc 0)
    have hrun : http_get net uri true maxr =
        (Except.error (err_create ERR_HTTP_REDIRECT_LIMIT
          (some (("Exceeded maximum redirect limit of ").data ++ intToString maxr))), tr) := by
      simp only [http_get, hp, hconn 0, hok 0, if_pos rfl]
      exact htr
    rw [hrun]
    simp at hlen
    simp [hlen]
    omega
  · obtain ⟨tr, htr, hlen⟩ := http_post_loop_limit net maxr body resp hconn hok h3xx hloc
      maxr.toNat 1 true p0 (resp 0)
      [⟨Method.POST, p0.host, p0.path, p0.port, body⟩]
      (h3xx 0).1 (h3xx 0).2 (hloc 0)
    have hrun : http_post net uri body true maxr =
        (Except.error (err_create ERR_HTTP_REDIRECT_LIMIT
          (some (("Exceeded maximum redirect limit of ").data ++ intToString maxr))), tr) := by
      simp only [http_post, hp, hconn 0, hok 0, if_pos rfl]
      exact htr
    rw [hrun]
    simp at hlen
    simp [hlen]
    omega
  · intro net2 u2 m2 b2
    constructor
    · unfold http_get
      cases hp2 : parse_uri_err u2 with
      | error e => simp
      | ok parsed2 =>
        simp only
        cases hc2 : net2.connect 0 with
        | error e => simp
        | ok uu =>
          simp only
          cases ho2 : http_once net2 0 with
          | error e => simp
          | ok r0 =>
            have hb := http_get_loop_length_le net2 m2 m2.toNat 1 parsed2 r0
              [⟨Method.GET, parsed2.host, parsed2.path, parsed2.port, none⟩]
            simp only [List.length_cons, List.length_nil] at hb
            show (http_get_loop net2 m2 m2.toNat 1 parsed2 r0
              [⟨Method.GET, parsed2.host, parsed2.path, parsed2.port, none⟩]).2.length ≤
                m2.toNat + 1
            omega
    · unfold http_post
      cases hp2 : parse_uri_err u2 with
      | error e => simp
      | ok parsed2 =>
        simp only
        cases hc2 : net2.connect 0 with
        | error e => simp
        | ok uu =>
          simp only
          cases ho2 : http_once net2 0 with
          | error e => simp
          | ok r0 =>
            have hb := http_post_loop_length_le net2 m2 b2 m2.toNat 1 true parsed2 r0
              [⟨Method.POST, parsed2.host, parsed2.path, parsed2.port, b2⟩]
            simp only [List.length_cons, List.length_nil] at hb
            show (http_post_loop net2 m2 b2 m2.toNat 1 true parsed2 r0
              [⟨Method.POST, parsed2.host, parsed2.path, parsed2.port, b2⟩]).2.length ≤
                m2.toNat + 1
            omega

/-- C4 amended witness: a network always answering 302 with Location
/next makes http_get with max_redirects 2 fail with the redirect-limit
error. -/
theorem redirect_limit_and_termination_witness :
    (http_get ⟨fun _ => Except.ok (), fun _ =>
        Except.ok (("HTTP/1.1 302 Found\r\nLocation: /next\r\n\r\n").data)⟩
      ("example.com").data true 2).1 =
      Except.error (err_create ERR_HTTP_REDIRECT_LIMIT
        (some (("Exceeded maximum redirect limit of ").data ++ intToString 2))) := by
  have h := redirect_limit_and_termination
    ⟨fun _ => Except.ok (), fun _ =>
      Except.ok (("HTTP/1.1 302 Found\r\nLocation: /next\r\n\r\n").data)⟩
    (fun _ => ⟨302, ("HTTP/1.1 302 Found\r\nLocation: /next\r\n\r\n").data,
      ("HTTP/1.1 302 Found\r\nLocation: /next\r\n\r\n").data.length⟩)
    (fun _ => rfl) (fun _ => rfl)
    (fun _ => by refine ⟨?_, ?_⟩ <;> norm_num)
    (fun _ => ⟨("/next").data, rfl, rfl⟩)
    ("example.com").data
    ⟨("example.com").data, [ '/' ], 80, NetAddrType.DOMAIN, Schema.HTTP⟩
    rfl 2 none
  exact h.1.1

/-! C5: the POST redirect method rules. -/

/-- C5. Running http_post on example.com/start with follow enabled,
when the first response has status c with Location /new and the second
response is a 200: for c in 301, 302, 303 the second exchange is a GET
(the method downgrade) carrying no body; for c in 307, 308 the second
exchange is still a POST carrying the original body unchanged; in both
cases exactly one further exchange happens, against the same host and
port with path /new, and the final response is returned. -/
theorem post_redirect_method_rules (net : NetOracle) (body : Option (List Char))
    (c : Int) (resp0 resp1 : HttpResponse)
    (hconn : ∀ k, net.connect k = Except.ok ())
    (h0 : http_once net 0 = Except.ok resp0)
    (h1 : http_once net 1 = Except.ok resp1)
    (hc0 : resp0.status_code = c)
    (hloc : locScan resp0.raw = LocResult.found (("/new").data))
    (h200 : resp1.status_code = 200)
    (maxr : Int) (hmax : 1 ≤ maxr) :
    (c = 301 ∨ c = 302 ∨ c = 303 →
      http_post net ("example.com/start").data body true maxr =
        (Except.ok resp1,
         [⟨Method.POST, ("example.com").data, ("/start").data, 80, body⟩,
          ⟨Method.GET, ("example.com").data, ("/new").data, 80, none⟩])) ∧
    (c = 307 ∨ c = 308 →
      http_post net ("example.com/start").data body true maxr =
        (Except.ok resp1,
         [⟨Method.POST, ("example.com").data, ("/start").data, 80, body⟩,
          ⟨Method.POST, ("example.com").data, ("/new").data, 80, body⟩])) := by
  have hp : parse_uri_err ("example.com/start").data =
      Except.ok ⟨("example.com").data, ("/start").data, 80,
        NetAddrType.DOMAIN, Schema.HTTP⟩ := rfl
  obtain ⟨r, hr⟩ : ∃ r, maxr.toNat = r + 1 := ⟨maxr.toNat - 1, by omega⟩
  constructor
  · intro hc
    simp only [http_post, hp, hconn 0, h0, hr]
    rw [if_pos trivial]
    unfold http_post_loop
    rcases hc with rfl | rfl | rfl <;>
      · simp only [hc0, hloc, hconn 1, h1]
        norm_num
        unfold http_post_loop
        simp only [h200]
        norm_num
  · intro hc
    simp only [http_post, hp, hconn 0, h0, hr]
    rw [if_pos trivial]
    unfold http_post_loop
    rcases hc with rfl | rfl <;>
      · simp only [hc0, hloc, hconn 1, h1]
        norm_num
        unfold http_post_loop
        simp only [h200]
        norm_num

/-- C5 witness: a concrete 301 exchange. The first raw response is
"HTTP/1.1 301 Moved" with Location /new; the follow-up is a GET to
/new on the same host and the original POST body is dropped. -/
theorem post_redirect_method_rules_witness :
    http_post
      ⟨fun _ => Except.ok (), fun k =>
        if k = 0 then Except.ok (("HTTP/1.1 301 Moved\r\nLocation: /new\r\n\r\n").data)
        else Except.ok (("HTTP/1.1 200 OK\r\n\r\nhello").data)⟩
      ("example.com/start").data (some ("x=1").data) true 5 =
      (Except.ok ⟨200, ("HTTP/1.1 200 OK\r\n\r\nhello").data,
        ("HTTP/1.1 200 OK\r\n\r\nhello").data.length⟩,
       [⟨Method.POST, ("example.com").data, ("/start").data, 80, some ("x=1").data⟩,
        ⟨Method.GET, ("example.com").data, ("/new").data, 80, none⟩]) := by
  have h := (post_redirect_method_rules
    ⟨fun _ => Except.ok (), fun k =>
      if k = 0 then Except.ok (("HTTP/1.1 301 Moved\r\nLocation: /new\r\n\r\n").data)
      else Except.ok (("HTTP/1.1 200 OK\r\n\r\nhello").data)⟩
    (some ("x=1").data) 301
    ⟨301, ("HTTP/1.1 301 Moved\r\nLocation: /new\r\n\r\n").data,
      ("HTTP/1.1 301 Moved\r\nLocation: /new\r\n\r\n").data.length⟩
    ⟨200, ("HTTP/1.1 200 OK\r\n\r\nhello").data,
      ("HTTP/1.1 200 OK\r\n\r\nhello").data.length⟩
    (fun _ => rfl) rfl rfl rfl rfl rfl 5 (by norm_num)).1
    (Or.inl rfl)
  exact h

/-- C10 witness: wrapping the message "inner" with context "outer"
keeps the code 4 and yields "outer: inner". -/
theorem err_propagate_preserves_code_witness :
    (err_propagate ⟨4, ("inner").data⟩ (some ("outer").data)).code = 4 ∧
    (err_propagate ⟨4, ("inner").data⟩ (some ("outer").data)).message =
      ("outer").data ++ chainSep ++ ("inner").data := by
  have h := err_propagate_preserves_code ⟨4, ("inner").data⟩ ("outer").data (by decide)
  exact ⟨h.1 (some ("outer").data), h.2.2 (by decide) (by decide)⟩

end Torilate
